import Mathlib

/-!
Verification development for the NYC Nexus derivation pipeline.

The source program classifies raw OpenStreetMap elements into a three-class
taxonomy, deduplicates them into graph nodes, generates proximity edges
between hotels and subways/attractions, computes degree centrality, and
ranks hotels under six scoring modes.

The embedding below mirrors the source functions `classifyOsmElement`,
`buildNycGraph` (its node-construction loop, edge-generation loops and
degree fold) and the `queryResults` ranking chain.  The source computes
great-circle distance with the floating-point `haversine` function
(`Math.sin`/`Math.cos`/`Math.atan2`); floating-point transcendentals have
no exact shallow embedding, so the edge generator is parameterised by the
distance function `dist`, exactly as the generator only ever observes
`haversine` through the comparisons `dist ... <= 300` and `dist ... <= 500`.
All structural claims (which pairs are compared, inclusive thresholds,
labels, dedup, degrees, ranking) are proved for every distance function,
hence in particular for the haversine distance.  JavaScript
`Array.prototype.sort` is stable (ECMAScript 2019); it is modelled by the
stable `List.mergeSort` with the same comparator.
-/

namespace NycNexus

/-- Taxonomy classes, mirroring the `NodeType` enum of `types.ts`. -/
inductive NodeType where
  | Hotel
  | Subway
  | Attraction
deriving DecidableEq, Repr

/-- Edge labels, mirroring the `EdgeLabel` union of `types.ts`. -/
inductive EdgeLabel where
  | TRANSIT_ACCESS
  | WALKABLE_TO
deriving DecidableEq, Repr

/-- Node colours, mirroring `NODE_COLORS` of `types.ts`. -/
def NODE_COLORS : NodeType → String
  | .Hotel      => "#3B82F6"
  | .Subway     => "#10B981"
  | .Attraction => "#F59E0B"

/-- Edge colours, mirroring `EDGE_COLORS` of `types.ts`. -/
def EDGE_COLORS : EdgeLabel → String
  | .TRANSIT_ACCESS => "rgba(16,185,129,0.50)"
  | .WALKABLE_TO    => "rgba(245,158,11,0.50)"

/-- Graph node, mirroring the `GraphNode` interface (the transient render
position `x`/`y` is injected by the force simulation only and omitted).
Coordinates are rationals: the generator is parameterised by the distance
function, so no floating-point operation on them is modelled. -/
structure GraphNode where
  id     : String
  name   : String
  type   : NodeType
  lat    : ℚ
  lon    : ℚ
  color  : String
  degree : Nat
deriving DecidableEq, Repr

/-- Graph link, mirroring the `GraphLink` interface (`source`/`target` as
the plain string ids `buildNycGraph` stores in them). -/
structure GraphLink where
  source : String
  target : String
  label  : EdgeLabel
  color  : String
deriving DecidableEq, Repr

/-- The `{ nodes, links }` pair returned by `buildNycGraph`. -/
structure GraphData where
  nodes : List GraphNode
  links : List GraphLink
deriving DecidableEq, Repr

/-- OSM element kind, mirroring the `type` discriminator of `OsmElement`. -/
inductive OsmKind where
  | node
  | way
  | relation
deriving DecidableEq, Repr

/-- String form of the kind, as interpolated into the identity key. -/
def OsmKind.str : OsmKind → String
  | .node     => "node"
  | .way      => "way"
  | .relation => "relation"

/-- Centroid coordinate, mirroring the optional `center` member. -/
structure Center where
  lat : ℚ
  lon : ℚ
deriving DecidableEq, Repr

/-- Raw record, mirroring the `OsmElement` interface: optional direct
coordinates, optional centroid, optional tag mapping. -/
structure OsmElement where
  id     : Int
  type   : OsmKind
  lat    : Option ℚ
  lon    : Option ℚ
  center : Option Center
  tags   : Option (List (String × String))
deriving DecidableEq, Repr

/-- Lookup of a tag value; a JavaScript object has unique keys, modelled as
an association list read by first match. -/
def tagVal (tags : List (String × String)) (k : String) : Option String :=
  List.lookup k tags

/-- The classifier, mirroring `classifyOsmElement`: hospitality tag first,
then rail-station-with-subway-sub-kind, else the Attraction catch-all. -/
def classifyOsmElement (tags : List (String × String)) : NodeType :=
  if tagVal tags "tourism" = some "hotel" then NodeType.Hotel
  else if tagVal tags "railway" = some "station" ∧ tagVal tags "station" = some "subway" then
    NodeType.Subway
  else NodeType.Attraction

/-- Coordinate resolution for latitude: `el.lat ?? el.center?.lat`. -/
def resolvedLat (el : OsmElement) : Option ℚ :=
  match el.lat with
  | some v => some v
  | none   => el.center.map Center.lat

/-- Coordinate resolution for longitude: `el.lon ?? el.center?.lon`. -/
def resolvedLon (el : OsmElement) : Option ℚ :=
  match el.lon with
  | some v => some v
  | none   => el.center.map Center.lon

/-- Identity key of a record: the interpolation `el.type-el.id`. -/
def elementId (el : OsmElement) : String :=
  el.type.str ++ "-" ++ toString el.id

/-- Name resolution: `tags.name ?? tags[name:en] ?? OSM el.id`. -/
def resolveName (tags : List (String × String)) (id : Int) : String :=
  match tagVal tags "name" with
  | some n => n
  | none   =>
    match tagVal tags "name:en" with
    | some n => n
    | none   => "OSM " ++ toString id

/-- The node a usable record becomes, mirroring the `nodes.push` literal. -/
def mkNode (el : OsmElement) (lat lon : ℚ) : GraphNode :=
  let tags := el.tags.getD []
  let type := classifyOsmElement tags
  { id := elementId el, name := resolveName tags el.id, type := type,
    lat := lat, lon := lon, color := NODE_COLORS type, degree := 0 }

/-- The node-construction loop of `buildNycGraph`, threading the `seenIds`
set: skip records without a resolvable coordinate, skip keys already seen,
push a node for the rest. -/
def buildNodesGo (seen : List String) : List OsmElement → List GraphNode
  | [] => []
  | el :: rest =>
    match resolvedLat el, resolvedLon el with
    | some lat, some lon =>
      if elementId el ∈ seen then buildNodesGo seen rest
      else mkNode el lat lon :: buildNodesGo (elementId el :: seen) rest
    | some _, none => buildNodesGo seen rest
    | none, _ => buildNodesGo seen rest

/-- The entity builder: the loop started with an empty `seenIds` set. -/
def buildNodes (elements : List OsmElement) : List GraphNode :=
  buildNodesGo [] elements

/-- The TRANSIT_ACCESS link literal pushed for a (hotel, subway) pair. -/
def transitLinkOf (hotel subway : GraphNode) : GraphLink :=
  { source := hotel.id, target := subway.id, label := EdgeLabel.TRANSIT_ACCESS,
    color := EDGE_COLORS EdgeLabel.TRANSIT_ACCESS }

/-- The WALKABLE_TO link literal pushed for a (hotel, attraction) pair. -/
def walkableLinkOf (hotel attraction : GraphNode) : GraphLink :=
  { source := hotel.id, target := attraction.id, label := EdgeLabel.WALKABLE_TO,
    color := EDGE_COLORS EdgeLabel.WALKABLE_TO }

/-- Inner subway loop for one hotel: push a TRANSIT_ACCESS link for every
subway at distance at most 300. -/
def transitLinks (dist : ℚ → ℚ → ℚ → ℚ → ℚ) (hotel : GraphNode)
    (subways : List GraphNode) : List GraphLink :=
  (subways.filter fun s => decide (dist hotel.lat hotel.lon s.lat s.lon ≤ 300)).map
    (transitLinkOf hotel)

/-- Inner attraction loop for one hotel: push a WALKABLE_TO link for every
attraction at distance at most 500. -/
def walkableLinks (dist : ℚ → ℚ → ℚ → ℚ → ℚ) (hotel : GraphNode)
    (attractions : List GraphNode) : List GraphLink :=
  (attractions.filter fun a => decide (dist hotel.lat hotel.lon a.lat a.lon ≤ 500)).map
    (walkableLinkOf hotel)

/-- Outer hotel loop of the edge generator. -/
def linksForHotels (dist : ℚ → ℚ → ℚ → ℚ → ℚ) (subways attractions : List GraphNode) :
    List GraphNode → List GraphLink
  | [] => []
  | h :: hs =>
    transitLinks dist h subways ++ walkableLinks dist h attractions ++
      linksForHotels dist subways attractions hs

/-- The ontology edge generator of `buildNycGraph`: partition the nodes by
class and run the nested proximity loops. -/
def mkLinks (dist : ℚ → ℚ → ℚ → ℚ → ℚ) (nodes : List GraphNode) : List GraphLink :=
  linksForHotels dist
    (nodes.filter fun n => decide (n.type = NodeType.Subway))
    (nodes.filter fun n => decide (n.type = NodeType.Attraction))
    (nodes.filter fun n => decide (n.type = NodeType.Hotel))

/-- One step of the degree fold: `degreeMap.set(k, (degreeMap.get(k) ?? 0) + 1)`,
with the map as a total function defaulting to 0. -/
def bumpDeg (m : String → Nat) (k : String) : String → Nat :=
  fun s => if s = k then m k + 1 else m s

/-- The degree fold of `buildNycGraph`: increment at source then at target
for every link. -/
def degreeMapOf (links : List GraphLink) : String → Nat :=
  links.foldl (fun m l => bumpDeg (bumpDeg m l.source) l.target) (fun _ => 0)

/-- The write-back loop: `node.degree = degreeMap.get(node.id) ?? 0`. -/
def setDegrees (nodes : List GraphNode) (links : List GraphLink) : List GraphNode :=
  nodes.map fun n => { n with degree := degreeMapOf links n.id }

/-- The derivation pipeline of `buildNycGraph` from the parsed element list
onward: build nodes, generate links, write degrees. -/
def buildNycGraph (dist : ℚ → ℚ → ℚ → ℚ → ℚ) (elements : List OsmElement) : GraphData :=
  let nodes := buildNodes elements
  let links := mkLinks dist nodes
  { nodes := setDegrees nodes links, links := links }

/-- The six scoring modes of the query engine. -/
inductive QueryMode where
  | transit
  | culture
  | balanced
  | connected
  | hub
  | corridor
deriving DecidableEq, Repr

/-- One ranking row, mirroring the object literal built in `queryResults`. -/
structure QueryResult where
  hotel        : GraphNode
  transitCount : Nat
  cultureCount : Nat
  score        : Nat
deriving DecidableEq, Repr

/-- Count of links incident to `id` carrying label `lab`: the
`rawLinks.filter(...).length` expressions computing `t` and `c`. -/
def incidentWithLabel (rawLinks : List GraphLink) (id : String) (lab : EdgeLabel) : Nat :=
  (rawLinks.filter fun l =>
    decide ((l.source = id ∨ l.target = id) ∧ l.label = lab)).length

/-- The conditional chain assigning `score` from `t` and `c` per mode. -/
def scoreFor (mode : QueryMode) (t c : Nat) : Nat :=
  match mode with
  | .transit   => t * 2 + c
  | .culture   => c * 2 + t
  | .balanced  => t + c
  | .connected => if 0 < t ∧ 0 < c then t + c else 0
  | .hub       => t * 3 + c
  | .corridor  => c * 3 + t

/-- The per-hotel mapping step of `queryResults`. -/
def scoreHotel (rawLinks : List GraphLink) (mode : QueryMode) (hotel : GraphNode) :
    QueryResult :=
  let t := incidentWithLabel rawLinks hotel.id EdgeLabel.TRANSIT_ACCESS
  let c := incidentWithLabel rawLinks hotel.id EdgeLabel.WALKABLE_TO
  { hotel := hotel, transitCount := t, cultureCount := c, score := scoreFor mode t c }

/-- The candidate list: hotels, scored, with non-positive scores dropped. -/
def scoredHotels (rawLinks : List GraphLink) (nodes : List GraphNode) (mode : QueryMode) :
    List QueryResult :=
  ((nodes.filter fun n => decide (n.type = NodeType.Hotel)).map
    (scoreHotel rawLinks mode)).filter fun r => decide (0 < r.score)

/-- The comparator `(a, b) => b.score - a.score`: `a` may precede `b`
exactly when the comparator is non-positive. -/
def byScoreDesc (a b : QueryResult) : Bool :=
  decide (b.score ≤ a.score)

/-- The stable descending sort of the candidate list. -/
def rankedHotels (rawLinks : List GraphLink) (nodes : List GraphNode) (mode : QueryMode) :
    List QueryResult :=
  (scoredHotels rawLinks nodes mode).mergeSort byScoreDesc

/-- The full `queryResults` chain: the empty-input guard, then
filter-map-filter-sort-slice. -/
def queryResults (rawLinks : List GraphLink) (nodes : List GraphNode) (mode : QueryMode) :
    List QueryResult :=
  if rawLinks = [] ∨ nodes = [] then []
  else (rankedHotels rawLinks nodes mode).take 5

/-! ### Concrete fixtures used to instantiate the theorems -/

/-- A raw record with both a direct point and a centroid. -/
def elPointAndCenter : OsmElement :=
  { id := 7, type := OsmKind.node, lat := some 1, lon := some 2,
    center := some { lat := 9, lon := 9 }, tags := none }

/-- A raw record with only a centroid. -/
def elCenterOnly : OsmElement :=
  { id := 8, type := OsmKind.way, lat := none, lon := none,
    center := some { lat := 9, lon := 9 }, tags := none }

/-- A raw record with no usable coordinate. -/
def elNoCoords : OsmElement :=
  { id := 9, type := OsmKind.node, lat := none, lon := none, center := none, tags := none }

/-- First of two duplicate records sharing kind node and numeric id 42. -/
def elDup1 : OsmElement :=
  { id := 42, type := OsmKind.node, lat := some 1, lon := some 2, center := none,
    tags := some [("name", "first")] }

/-- Second of two duplicate records sharing kind node and numeric id 42. -/
def elDup2 : OsmElement :=
  { id := 42, type := OsmKind.node, lat := some 3, lon := some 4, center := none,
    tags := some [("name", "second")] }

/-- A raw record classified Hotel. -/
def elHotel : OsmElement :=
  { id := 1, type := OsmKind.node, lat := some 0, lon := some 0, center := none,
    tags := some [("tourism", "hotel"), ("name", "H1")] }

/-- A raw record classified Subway. -/
def elSubway : OsmElement :=
  { id := 2, type := OsmKind.node, lat := some 0, lon := some 0, center := none,
    tags := some [("railway", "station"), ("station", "subway"), ("name", "S1")] }

/-- A raw record classified Attraction. -/
def elAttraction : OsmElement :=
  { id := 3, type := OsmKind.node, lat := some 0, lon := some 0, center := none,
    tags := some [("tourism", "museum"), ("name", "A1")] }

/-- A concrete Hotel node. -/
def nH1 : GraphNode :=
  { id := "h1", name := "H1", type := NodeType.Hotel, lat := 0, lon := 0,
    color := NODE_COLORS NodeType.Hotel, degree := 0 }

/-- A second concrete Hotel node. -/
def nH2 : GraphNode :=
  { id := "h2", name := "H2", type := NodeType.Hotel, lat := 0, lon := 0,
    color := NODE_COLORS NodeType.Hotel, degree := 0 }

/-- A concrete Subway node. -/
def nS1 : GraphNode :=
  { id := "s1", name := "S1", type := NodeType.Subway, lat := 0, lon := 0,
    color := NODE_COLORS NodeType.Subway, degree := 0 }

/-- A concrete Attraction node. -/
def nA1 : GraphNode :=
  { id := "a1", name := "A1", type := NodeType.Attraction, lat := 0, lon := 0,
    color := NODE_COLORS NodeType.Attraction, degree := 0 }

/-- A distance function that is constantly zero metres. -/
def distZero : ℚ → ℚ → ℚ → ℚ → ℚ := fun _ _ _ _ => 0

/-- A distance function that is constantly exactly 300 metres. -/
def dist300 : ℚ → ℚ → ℚ → ℚ → ℚ := fun _ _ _ _ => 300

/-! ### Helper lemmas: entity builder -/

/-- Distinctness relation on node identities. -/
def IdDistinct (a b : GraphNode) : Prop := a.id ≠ b.id

theorem idDistinct_symm : ∀ {a b : GraphNode}, IdDistinct a b → IdDistinct b a :=
  fun h => Ne.symm h

theorem mem_buildNodesGo_not_seen :
    ∀ (els : List OsmElement) (seen : List String) (n : GraphNode),
      n ∈ buildNodesGo seen els → n.id ∉ seen := by
  intro els
  induction els with
  | nil => intro seen n hn; simp [buildNodesGo] at hn
  | cons el rest ih =>
    intro seen n hn
    unfold buildNodesGo at hn
    rcases hlat : resolvedLat el with _ | lat <;> rcases hlon : resolvedLon el with _ | lon <;>
      simp only [hlat, hlon] at hn
    · exact ih seen n hn
    · exact ih seen n hn
    · exact ih seen n hn
    · by_cases hseen : elementId el ∈ seen
      · rw [if_pos hseen] at hn
        exact ih seen n hn
      · rw [if_neg hseen] at hn
        rcases List.mem_cons.mp hn with heq | htail
        · subst heq; exact hseen
        · intro hmem
          exact ih (elementId el :: seen) n htail (List.mem_cons_of_mem _ hmem)

theorem pairwise_id_buildNodesGo :
    ∀ (els : List OsmElement) (seen : List String),
      (buildNodesGo seen els).Pairwise IdDistinct := by
  intro els
  induction els with
  | nil => intro seen; simp [buildNodesGo]
  | cons el rest ih =>
    intro seen
    unfold buildNodesGo
    rcases hlat : resolvedLat el with _ | lat <;> rcases hlon : resolvedLon el with _ | lon <;>
      simp only
    · exact ih seen
    · exact ih seen
    · exact ih seen
    · by_cases hseen : elementId el ∈ seen
      · rw [if_pos hseen]; exact ih seen
      · rw [if_neg hseen]
        refine List.pairwise_cons.mpr ⟨?_, ih _⟩
        intro n hn
        have := mem_buildNodesGo_not_seen rest (elementId el :: seen) n hn
        intro hid
        exact this (by rw [← hid]; simp [mkNode])

theorem buildNodes_pairwise_id (els : List OsmElement) :
    (buildNodes els).Pairwise IdDistinct :=
  pairwise_id_buildNodesGo els []

theorem eq_of_mem_of_id_eq {nodes : List GraphNode}
    (hpw : nodes.Pairwise IdDistinct) {a b : GraphNode}
    (ha : a ∈ nodes) (hb : b ∈ nodes) (hid : a.id = b.id) : a = b := by
  by_contra hne
  exact hpw.forall (fun _ _ h => idDistinct_symm h) ha hb hne hid

theorem buildNodesGo_skip {el : OsmElement}
    (h : resolvedLat el = none ∨ resolvedLon el = none) (seen : List String)
    (rest : List OsmElement) :
    buildNodesGo seen (el :: rest) = buildNodesGo seen rest := by
  conv_lhs => rw [buildNodesGo]
  rcases hlat : resolvedLat el with _ | lat <;> rcases hlon : resolvedLon el with _ | lon
  · rfl
  · rfl
  · rfl
  · rw [hlat, hlon] at h
    rcases h with h | h <;> simp at h

theorem buildNodesGo_dup {el : OsmElement} {seen : List String}
    (h : elementId el ∈ seen) (rest : List OsmElement) :
    buildNodesGo seen (el :: rest) = buildNodesGo seen rest := by
  conv_lhs => rw [buildNodesGo]
  rcases resolvedLat el with _ | lat <;> rcases resolvedLon el with _ | lon
  · rfl
  · rfl
  · rfl
  · simp only [if_pos h]

theorem buildNodesGo_push {el : OsmElement} {seen : List String} {lat lon : ℚ}
    (hlat : resolvedLat el = some lat) (hlon : resolvedLon el = some lon)
    (hseen : elementId el ∉ seen) (rest : List OsmElement) :
    buildNodesGo seen (el :: rest) =
      mkNode el lat lon :: buildNodesGo (elementId el :: seen) rest := by
  conv_lhs => rw [buildNodesGo]
  rw [hlat, hlon]
  simp only [if_neg hseen]

/-! ### Helper lemmas: edge generator -/

theorem mem_transitLinks {dist : ℚ → ℚ → ℚ → ℚ → ℚ} {h : GraphNode}
    {subways : List GraphNode} {l : GraphLink} :
    l ∈ transitLinks dist h subways ↔
      ∃ s, s ∈ subways ∧ dist h.lat h.lon s.lat s.lon ≤ 300 ∧ l = transitLinkOf h s := by
  simp only [transitLinks, List.mem_map, List.mem_filter, decide_eq_true_eq]
  constructor
  · rintro ⟨s, ⟨hs, hd⟩, rfl⟩
    exact ⟨s, hs, hd, rfl⟩
  · rintro ⟨s, hs, hd, rfl⟩
    exact ⟨s, ⟨hs, hd⟩, rfl⟩

theorem mem_walkableLinks {dist : ℚ → ℚ → ℚ → ℚ → ℚ} {h : GraphNode}
    {attractions : List GraphNode} {l : GraphLink} :
    l ∈ walkableLinks dist h attractions ↔
      ∃ a, a ∈ attractions ∧ dist h.lat h.lon a.lat a.lon ≤ 500 ∧ l = walkableLinkOf h a := by
  simp only [walkableLinks, List.mem_map, List.mem_filter, decide_eq_true_eq]
  constructor
  · rintro ⟨a, ⟨ha, hd⟩, rfl⟩
    exact ⟨a, ha, hd, rfl⟩
  · rintro ⟨a, ha, hd, rfl⟩
    exact ⟨a, ⟨ha, hd⟩, rfl⟩

theorem mem_linksForHotels {dist : ℚ → ℚ → ℚ → ℚ → ℚ}
    {subways attractions : List GraphNode} {l : GraphLink} :
    ∀ {hs : List GraphNode},
      l ∈ linksForHotels dist subways attractions hs ↔
        ∃ h, h ∈ hs ∧
          (l ∈ transitLinks dist h subways ∨ l ∈ walkableLinks dist h attractions) := by
  intro hs
  induction hs with
  | nil => simp [linksForHotels]
  | cons h hs ih =>
    simp only [linksForHotels, List.mem_append, ih, List.mem_cons]
    constructor
    · rintro ((ht | hw) | ⟨h', hh', hl'⟩)
      · exact ⟨h, Or.inl rfl, Or.inl ht⟩
      · exact ⟨h, Or.inl rfl, Or.inr hw⟩
      · exact ⟨h', Or.inr hh', hl'⟩
    · rintro ⟨h', rfl | hh', hl'⟩
      · rcases hl' with ht | hw
        · exact Or.inl (Or.inl ht)
        · exact Or.inl (Or.inr hw)
      · exact Or.inr ⟨h', hh', hl'⟩

theorem mem_mkLinks {dist : ℚ → ℚ → ℚ → ℚ → ℚ} {nodes : List GraphNode} {l : GraphLink} :
    l ∈ mkLinks dist nodes ↔
      ∃ h, h ∈ nodes ∧ h.type = NodeType.Hotel ∧
        ((∃ s, s ∈ nodes ∧ s.type = NodeType.Subway ∧
            dist h.lat h.lon s.lat s.lon ≤ 300 ∧ l = transitLinkOf h s) ∨
         (∃ a, a ∈ nodes ∧ a.type = NodeType.Attraction ∧
            dist h.lat h.lon a.lat a.lon ≤ 500 ∧ l = walkableLinkOf h a)) := by
  simp only [mkLinks, mem_linksForHotels, mem_transitLinks, mem_walkableLinks,
    List.mem_filter, decide_eq_true_eq]
  constructor
  · rintro ⟨h, ⟨hh, hty⟩, ⟨s, ⟨hsm, hsty⟩, hd, rfl⟩ | ⟨a, ⟨ham, haty⟩, hd, rfl⟩⟩
    · exact ⟨h, hh, hty, Or.inl ⟨s, hsm, hsty, hd, rfl⟩⟩
    · exact ⟨h, hh, hty, Or.inr ⟨a, ham, haty, hd, rfl⟩⟩
  · rintro ⟨h, hh, hty, ⟨s, hsm, hsty, hd, rfl⟩ | ⟨a, ham, haty, hd, rfl⟩⟩
    · exact ⟨h, ⟨hh, hty⟩, Or.inl ⟨s, ⟨hsm, hsty⟩, hd, rfl⟩⟩
    · exact ⟨h, ⟨hh, hty⟩, Or.inr ⟨a, ⟨ham, haty⟩, hd, rfl⟩⟩

theorem source_of_mem_hotelLinks {dist : ℚ → ℚ → ℚ → ℚ → ℚ} {h : GraphNode}
    {subways attractions : List GraphNode} {l : GraphLink}
    (hl : l ∈ transitLinks dist h subways ∨ l ∈ walkableLinks dist h attractions) :
    l.source = h.id := by
  rcases hl with hl | hl
  · rcases mem_transitLinks.mp hl with ⟨s, _, _, rfl⟩
    rfl
  · rcases mem_walkableLinks.mp hl with ⟨a, _, _, rfl⟩
    rfl

/-- Distinctness of the (source, target, label) triple of two links. -/
def TripleDistinct (a b : GraphLink) : Prop :=
  ¬(a.source = b.source ∧ a.target = b.target ∧ a.label = b.label)

theorem pairwise_target_transitLinks {dist : ℚ → ℚ → ℚ → ℚ → ℚ} {h : GraphNode}
    {subways : List GraphNode} (hsub : subways.Pairwise IdDistinct) :
    (transitLinks dist h subways).Pairwise (fun a b => a.target ≠ b.target) := by
  refine List.Pairwise.map _ ?_ (hsub.filter _)
  intro s₁ s₂ hne
  simpa [transitLinkOf] using hne

theorem pairwise_target_walkableLinks {dist : ℚ → ℚ → ℚ → ℚ → ℚ} {h : GraphNode}
    {attractions : List GraphNode} (hatt : attractions.Pairwise IdDistinct) :
    (walkableLinks dist h attractions).Pairwise (fun a b => a.target ≠ b.target) := by
  refine List.Pairwise.map _ ?_ (hatt.filter _)
  intro a₁ a₂ hne
  simpa [walkableLinkOf] using hne

theorem label_of_mem_transitLinks {dist : ℚ → ℚ → ℚ → ℚ → ℚ} {h : GraphNode}
    {subways : List GraphNode} {l : GraphLink} (hl : l ∈ transitLinks dist h subways) :
    l.label = EdgeLabel.TRANSIT_ACCESS := by
  rcases mem_transitLinks.mp hl with ⟨s, _, _, rfl⟩
  rfl

theorem label_of_mem_walkableLinks {dist : ℚ → ℚ → ℚ → ℚ → ℚ} {h : GraphNode}
    {attractions : List GraphNode} {l : GraphLink} (hl : l ∈ walkableLinks dist h attractions) :
    l.label = EdgeLabel.WALKABLE_TO := by
  rcases mem_walkableLinks.mp hl with ⟨a, _, _, rfl⟩
  rfl

theorem pairwise_triple_linksForHotels {dist : ℚ → ℚ → ℚ → ℚ → ℚ}
    {subways attractions : List GraphNode}
    (hsub : subways.Pairwise IdDistinct) (hatt : attractions.Pairwise IdDistinct) :
    ∀ {hs : List GraphNode}, hs.Pairwise IdDistinct →
      (linksForHotels dist subways attractions hs).Pairwise TripleDistinct := by
  intro hs
  induction hs with
  | nil => intro _; simp [linksForHotels]
  | cons h hs ih =>
    intro hpw
    rcases List.pairwise_cons.mp hpw with ⟨hhead, htail⟩
    simp only [linksForHotels]
    rw [List.pairwise_append]
    refine ⟨?_, ih htail, ?_⟩
    · rw [List.pairwise_append]
      refine ⟨?_, ?_, ?_⟩
      · exact (pairwise_target_transitLinks hsub).imp fun hne hc => hne hc.2.1
      · exact (pairwise_target_walkableLinks hatt).imp fun hne hc => hne hc.2.1
      · intro a ha b hb hc
        have h₁ := label_of_mem_transitLinks ha
        have h₂ := label_of_mem_walkableLinks hb
        rw [hc.2.2, h₂] at h₁
        exact EdgeLabel.noConfusion h₁
    · intro a ha b hb hc
      rcases mem_linksForHotels.mp hb with ⟨h', hh', hl'⟩
      have hbsrc : b.source = h'.id := source_of_mem_hotelLinks hl'
      have hasrc : a.source = h.id := source_of_mem_hotelLinks (List.mem_append.mp ha)
      exact hhead h' hh' (by rw [← hasrc, ← hbsrc, hc.1])

theorem pairwise_triple_mkLinks {dist : ℚ → ℚ → ℚ → ℚ → ℚ} {nodes : List GraphNode}
    (hpw : nodes.Pairwise IdDistinct) :
    (mkLinks dist nodes).Pairwise TripleDistinct :=
  pairwise_triple_linksForHotels (hpw.filter _) (hpw.filter _) (hpw.filter _)

theorem source_ne_target_of_mem_mkLinks {dist : ℚ → ℚ → ℚ → ℚ → ℚ}
    {nodes : List GraphNode} (hpw : nodes.Pairwise IdDistinct) {l : GraphLink}
    (hl : l ∈ mkLinks dist nodes) : l.source ≠ l.target := by
  rcases mem_mkLinks.mp hl with ⟨h, hh, hty, ⟨s, hsm, hsty, _, rfl⟩ | ⟨a, ham, haty, _, rfl⟩⟩
  · intro hc
    have : h = s := eq_of_mem_of_id_eq hpw hh hsm hc
    rw [this, hsty] at hty
    exact NodeType.noConfusion hty
  · intro hc
    have : h = a := eq_of_mem_of_id_eq hpw hh ham hc
    rw [this, haty] at hty
    exact NodeType.noConfusion hty

/-! ### Helper lemmas: degree computation -/

theorem bumpDeg_apply (m : String → Nat) (k s : String) :
    bumpDeg m k s = m s + (if k = s then 1 else 0) := by
  by_cases h : s = k
  · subst h; simp [bumpDeg]
  · have h' : ¬k = s := fun hc => h hc.symm
    simp [bumpDeg, h, h']

theorem degree_foldl (links : List GraphLink) :
    ∀ (m : String → Nat) (id : String),
      (links.foldl (fun m l => bumpDeg (bumpDeg m l.source) l.target) m) id =
        m id + links.countP (fun l => decide (l.source = id)) +
          links.countP (fun l => decide (l.target = id)) := by
  induction links with
  | nil => intro m id; simp
  | cons l ls ih =>
    intro m id
    rw [List.foldl_cons, ih, List.countP_cons, List.countP_cons]
    rw [bumpDeg_apply, bumpDeg_apply]
    by_cases hs : id = l.source <;> by_cases ht : id = l.target <;>
      simp [hs, ht] <;> omega

theorem degreeMapOf_eq (links : List GraphLink) (id : String) :
    degreeMapOf links id =
      links.countP (fun l => decide (l.source = id)) +
        links.countP (fun l => decide (l.target = id)) := by
  rw [degreeMapOf, degree_foldl]
  simp

theorem countP_incident_eq {links : List GraphLink} {id : String}
    (hnl : ∀ l ∈ links, ¬(l.source = id ∧ l.target = id)) :
    links.countP (fun l => decide (l.source = id ∨ l.target = id)) =
      links.countP (fun l => decide (l.source = id)) +
        links.countP (fun l => decide (l.target = id)) := by
  induction links with
  | nil => simp
  | cons l ls ih =>
    have hl := hnl l (List.mem_cons_self l ls)
    have ihh := ih fun x hx => hnl x (List.mem_cons_of_mem l hx)
    rw [List.countP_cons, List.countP_cons, List.countP_cons, ihh]
    by_cases hs : l.source = id <;> by_cases ht : l.target = id
    · exact absurd ⟨hs, ht⟩ hl
    · simp [hs, ht]
      omega
    · simp [hs, ht]
      omega
    · simp [hs, ht]

theorem mem_setDegrees {nodes : List GraphNode} {links : List GraphLink} {n : GraphNode} :
    n ∈ setDegrees nodes links ↔
      ∃ m, m ∈ nodes ∧ n = { m with degree := degreeMapOf links m.id } := by
  simp only [setDegrees, List.mem_map]
  constructor
  · rintro ⟨m, hm, rfl⟩
    exact ⟨m, hm, rfl⟩
  · rintro ⟨m, hm, rfl⟩
    exact ⟨m, hm, rfl⟩

/-! ### Claim theorems -/

/-- C6: the classifier is total — for every tag mapping it returns exactly one
of the three classes and never fails; the rules apply in fixed priority order
with first match winning: a hospitality tag yields Hotel even when rail-station
and subway tags are also present, a rail-station tag with a subway sub-kind tag
and no hotel tag yields Subway, and every other mapping (the empty one
included) yields Attraction. -/
theorem classifyOsmElement_priority_total (tags : List (String × String)) :
    (classifyOsmElement tags = NodeType.Hotel ∨ classifyOsmElement tags = NodeType.Subway ∨
      classifyOsmElement tags = NodeType.Attraction) ∧
    (classifyOsmElement tags = NodeType.Hotel ↔ tagVal tags "tourism" = some "hotel") ∧
    (classifyOsmElement tags = NodeType.Subway ↔
      (¬tagVal tags "tourism" = some "hotel" ∧ tagVal tags "railway" = some "station" ∧
        tagVal tags "station" = some "subway")) ∧
    (classifyOsmElement tags = NodeType.Attraction ↔
      (¬tagVal tags "tourism" = some "hotel" ∧
        ¬(tagVal tags "railway" = some "station" ∧ tagVal tags "station" = some "subway"))) ∧
    classifyOsmElement [] = NodeType.Attraction := by
  refine ⟨?_, ?_, ?_, ?_, by decide⟩ <;>
    (unfold classifyOsmElement
     by_cases h1 : tagVal tags "tourism" = some "hotel"
     · simp [h1]
     · by_cases h2 : tagVal tags "railway" = some "station" ∧
         tagVal tags "station" = some "subway"
       · simp [h1, h2]
       · simp [h1, h2])

/-- C6 witness: concrete classifications — hotel tag wins over rail tags,
rail-station with subway sub-kind yields Subway, empty mapping yields
Attraction. -/
theorem classifyOsmElement_priority_total_witness :
    classifyOsmElement
        [("tourism", "hotel"), ("railway", "station"), ("station", "subway")] =
      NodeType.Hotel ∧
    classifyOsmElement [("railway", "station"), ("station", "subway")] = NodeType.Subway ∧
    classifyOsmElement [] = NodeType.Attraction := by
  refine ⟨?_, ?_, ?_⟩
  · exact (classifyOsmElement_priority_total
      [("tourism", "hotel"), ("railway", "station"), ("station", "subway")]).2.1.mpr
      (by decide)
  · exact (classifyOsmElement_priority_total
      [("railway", "station"), ("station", "subway")]).2.2.1.mpr (by decide)
  · exact (classifyOsmElement_priority_total []).2.2.2.2

/-- C7: coordinate resolution prefers the direct point coordinate, falls back
to the precomputed centroid when the direct coordinate is absent, and a record
with no resolvable latitude or longitude is silently skipped by the entity
builder and never becomes a node. -/
theorem coordinate_resolution_prefers_point_then_centroid (el : OsmElement) :
    (∀ v, el.lat = some v → resolvedLat el = some v) ∧
    (el.lat = none → resolvedLat el = el.center.map Center.lat) ∧
    (∀ v, el.lon = some v → resolvedLon el = some v) ∧
    (el.lon = none → resolvedLon el = el.center.map Center.lon) ∧
    (resolvedLat el = none ∨ resolvedLon el = none →
      ∀ (seen : List String) (rest : List OsmElement),
        buildNodesGo seen (el :: rest) = buildNodesGo seen rest) := by
  refine ⟨?_, ?_, ?_, ?_, ?_⟩
  · intro v h; simp [resolvedLat, h]
  · intro h; simp [resolvedLat, h]
  · intro v h; simp [resolvedLon, h]
  · intro h; simp [resolvedLon, h]
  · intro h seen rest
    exact buildNodesGo_skip h seen rest

/-- C7 witness: a record carrying both a direct point and a centroid resolves
to the direct point; a record with only a centroid resolves to the centroid; a
record with neither is skipped. -/
theorem coordinate_resolution_witness :
    resolvedLat elPointAndCenter = some 1 ∧
    resolvedLat elCenterOnly = some 9 ∧
    buildNodesGo [] [elNoCoords] = buildNodesGo [] [] := by
  refine ⟨?_, ?_, ?_⟩
  · exact (coordinate_resolution_prefers_point_then_centroid elPointAndCenter).1 1 rfl
  · have h := (coordinate_resolution_prefers_point_then_centroid elCenterOnly).2.1 rfl
    simpa [elCenterOnly] using h
  · exact (coordinate_resolution_prefers_point_then_centroid elNoCoords).2.2.2.2
      (Or.inl rfl) [] []

/-- C8: entities are deduplicated by the identity key kind-numericId: the
entity list produced by the builder has pairwise distinct ids (at most one
entity per key), and a record whose key was already taken is silently dropped,
so the first occurrence of a key wins. -/
theorem dedup_first_wins_unique_ids (elements : List OsmElement) :
    (buildNodes elements).Pairwise (fun a b => a.id ≠ b.id) ∧
    (∀ (seen : List String) (el : OsmElement) (rest : List OsmElement),
      elementId el ∈ seen → buildNodesGo seen (el :: rest) = buildNodesGo seen rest) ∧
    (∀ (seen : List String) (el : OsmElement) (rest : List OsmElement) (lat lon : ℚ),
      resolvedLat el = some lat → resolvedLon el = some lon → elementId el ∉ seen →
      buildNodesGo seen (el :: rest) =
        mkNode el lat lon :: buildNodesGo (elementId el :: seen) rest) := by
  refine ⟨buildNodes_pairwise_id elements, ?_, ?_⟩
  · intro seen el rest h
    exact buildNodesGo_dup h rest
  · intro seen el rest lat lon hlat hlon hseen
    exact buildNodesGo_push hlat hlon hseen rest

/-- C8 witness: two raw records sharing kind node and numeric id 42 collapse
to exactly one entity, and the duplicate is dropped because its key is already
in the seen set. -/
theorem dedup_first_wins_witness :
    (buildNodes [elDup1, elDup2]).Pairwise (fun a b => a.id ≠ b.id) ∧
    (buildNodes [elDup1, elDup2]).length = 1 ∧
    buildNodesGo ["node-42"] [elDup2] = buildNodesGo ["node-42"] [] := by
  refine ⟨(dedup_first_wins_unique_ids [elDup1, elDup2]).1, by decide, ?_⟩
  exact (dedup_first_wins_unique_ids []).2.1 ["node-42"] elDup2 [] (by decide)

/-- C1: for every entity set with distinct ids, the edge generator emits the
TRANSIT_ACCESS edge from a Hotel to a Subway exactly when the configured
distance of the pair is at most 300 (inclusive: a pair at exactly 300 yields
an edge), and the WALKABLE_TO edge from a Hotel to an Attraction exactly when
the distance is at most 500 (inclusive); by the right-to-left reading no edge
is emitted for a pair strictly above its threshold.  The source computes the
distance by the floating-point Haversine formula over Earth radius 6371000 m;
the generator observes it only through these comparisons, so it is the
parameter dist here. -/
theorem transit_walkable_edges_iff_within_threshold
    (dist : ℚ → ℚ → ℚ → ℚ → ℚ) (nodes : List GraphNode)
    (huniq : nodes.Pairwise (fun a b => a.id ≠ b.id))
    (h x : GraphNode) (hh : h ∈ nodes) (hx : x ∈ nodes)
    (hH : h.type = NodeType.Hotel) :
    (x.type = NodeType.Subway →
      (transitLinkOf h x ∈ mkLinks dist nodes ↔ dist h.lat h.lon x.lat x.lon ≤ 300)) ∧
    (x.type = NodeType.Attraction →
      (walkableLinkOf h x ∈ mkLinks dist nodes ↔ dist h.lat h.lon x.lat x.lon ≤ 500)) := by
  constructor
  · intro hS
    constructor
    · intro hmem
      rcases mem_mkLinks.mp hmem with
        ⟨h', hh', _, ⟨s, hsm, _, hd, heq⟩ | ⟨a, _, _, _, heq⟩⟩
      · have hids : h.id = h'.id ∧ x.id = s.id := by
          simpa [transitLinkOf] using heq
        have hh'' : h = h' := eq_of_mem_of_id_eq huniq hh hh' hids.1
        have hx'' : x = s := eq_of_mem_of_id_eq huniq hx hsm hids.2
        rw [hh'', hx'']
        exact hd
      · exact absurd (congrArg GraphLink.label heq) (by simp [transitLinkOf, walkableLinkOf])
    · intro hd
      exact mem_mkLinks.mpr ⟨h, hh, hH, Or.inl ⟨x, hx, hS, hd, rfl⟩⟩
  · intro hA
    constructor
    · intro hmem
      rcases mem_mkLinks.mp hmem with
        ⟨h', hh', _, ⟨s, _, _, _, heq⟩ | ⟨a, ham, _, hd, heq⟩⟩
      · exact absurd (congrArg GraphLink.label heq) (by simp [transitLinkOf, walkableLinkOf])
      · have hids : h.id = h'.id ∧ x.id = a.id := by
          simpa [walkableLinkOf] using heq
        have hh'' : h = h' := eq_of_mem_of_id_eq huniq hh hh' hids.1
        have hx'' : x = a := eq_of_mem_of_id_eq huniq hx ham hids.2
        rw [hh'', hx'']
        exact hd
    · intro hd
      exact mem_mkLinks.mpr ⟨h, hh, hH, Or.inr ⟨x, hx, hA, hd, rfl⟩⟩

/-- C1 witness: with the constant distance function returning exactly 300, a
Hotel–Subway pair yields a TRANSIT_ACCESS edge (inclusive bound) and a
Hotel–Attraction pair yields a WALKABLE_TO edge. -/
theorem transit_walkable_edges_witness :
    transitLinkOf nH1 nS1 ∈ mkLinks dist300 [nH1, nS1, nA1] ∧
    walkableLinkOf nH1 nA1 ∈ mkLinks dist300 [nH1, nS1, nA1] := by
  constructor
  · exact ((transit_walkable_edges_iff_within_threshold dist300 [nH1, nS1, nA1]
      (by decide) nH1 nS1 (by decide) (by decide) (by decide)).1 (by decide)).mpr
      (by decide)
  · exact ((transit_walkable_edges_iff_within_threshold dist300 [nH1, nS1, nA1]
      (by decide) nH1 nA1 (by decide) (by decide) (by decide)).2 (by decide)).mpr
      (by decide)

theorem mem_setDegrees_of_mem {nodes : List GraphNode} {links : List GraphLink}
    {m : GraphNode} (hm : m ∈ nodes) :
    { m with degree := degreeMapOf links m.id } ∈ setDegrees nodes links :=
  mem_setDegrees.mpr ⟨m, hm, rfl⟩

/-- C5: every generated edge connects a Hotel source to a Subway target when
labeled TRANSIT_ACCESS, or a Hotel source to an Attraction target when labeled
WALKABLE_TO; both endpoint ids resolve to entities present in the same
derivation run (no dangling edges), the two endpoints are distinct, and every
entity carrying the source id is a Hotel while every entity carrying the
target id has the class dictated by the label — so no edge ever connects two
entities of the same class, and none connects a Subway and an Attraction. -/
theorem edges_connect_hotel_to_subway_or_attraction
    (dist : ℚ → ℚ → ℚ → ℚ → ℚ) (elements : List OsmElement)
    (l : GraphLink) (hl : l ∈ (buildNycGraph dist elements).links) :
    (∃ hn ∈ (buildNycGraph dist elements).nodes,
      hn.id = l.source ∧ hn.type = NodeType.Hotel) ∧
    (∃ tn ∈ (buildNycGraph dist elements).nodes,
      tn.id = l.target ∧
        ((l.label = EdgeLabel.TRANSIT_ACCESS ∧ tn.type = NodeType.Subway) ∨
         (l.label = EdgeLabel.WALKABLE_TO ∧ tn.type = NodeType.Attraction))) ∧
    l.source ≠ l.target ∧
    (∀ n ∈ (buildNycGraph dist elements).nodes, n.id = l.source →
      n.type = NodeType.Hotel) ∧
    (∀ n ∈ (buildNycGraph dist elements).nodes, n.id = l.target →
      (l.label = EdgeLabel.TRANSIT_ACCESS → n.type = NodeType.Subway) ∧
      (l.label = EdgeLabel.WALKABLE_TO → n.type = NodeType.Attraction)) := by
  have hpw := buildNodes_pairwise_id elements
  have hl' : l ∈ mkLinks dist (buildNodes elements) := hl
  have hlinks := mem_mkLinks.mp hl'
  refine ⟨?_, ?_, source_ne_target_of_mem_mkLinks hpw hl', ?_, ?_⟩
  · rcases hlinks with ⟨h, hh, hty, ⟨s, _, _, _, rfl⟩ | ⟨a, _, _, _, rfl⟩⟩
    · exact ⟨_, mem_setDegrees_of_mem hh, rfl, hty⟩
    · exact ⟨_, mem_setDegrees_of_mem hh, rfl, hty⟩
  · rcases hlinks with ⟨h, _, _, ⟨s, hsm, hsty, _, rfl⟩ | ⟨a, ham, haty, _, rfl⟩⟩
    · exact ⟨_, mem_setDegrees_of_mem hsm, rfl, Or.inl ⟨rfl, hsty⟩⟩
    · exact ⟨_, mem_setDegrees_of_mem ham, rfl, Or.inr ⟨rfl, haty⟩⟩
  · intro n hn hid
    rcases mem_setDegrees.mp hn with ⟨m, hm, rfl⟩
    rcases hlinks with ⟨h, hh, hty, ⟨s, _, _, _, rfl⟩ | ⟨a, _, _, _, rfl⟩⟩
    · have : m = h := eq_of_mem_of_id_eq hpw hm hh hid
      rw [show ({ m with degree := degreeMapOf (mkLinks dist (buildNodes elements)) m.id }
        : GraphNode).type = m.type from rfl, this]
      exact hty
    · have : m = h := eq_of_mem_of_id_eq hpw hm hh hid
      rw [show ({ m with degree := degreeMapOf (mkLinks dist (buildNodes elements)) m.id }
        : GraphNode).type = m.type from rfl, this]
      exact hty
  · intro n hn hid
    rcases mem_setDegrees.mp hn with ⟨m, hm, rfl⟩
    rcases hlinks with ⟨h, hh, hty, ⟨s, hsm, hsty, _, rfl⟩ | ⟨a, ham, haty, _, rfl⟩⟩
    · have : m = s := eq_of_mem_of_id_eq hpw hm hsm hid
      constructor
      · intro _
        rw [show ({ m with degree := degreeMapOf (mkLinks dist (buildNodes elements)) m.id }
          : GraphNode).type = m.type from rfl, this]
        exact hsty
      · intro hlab
        exact absurd hlab (by simp [transitLinkOf])
    · have : m = a := eq_of_mem_of_id_eq hpw hm ham hid
      constructor
      · intro hlab
        exact absurd hlab (by simp [walkableLinkOf])
      · intro _
        rw [show ({ m with degree := degreeMapOf (mkLinks dist (buildNodes elements)) m.id }
          : GraphNode).type = m.type from rfl, this]
        exact haty

/-- C5 witness: in the concrete run over a hotel, a subway and an attraction
record, the first generated edge has distinct endpoints and its source id
resolves to a Hotel entity of the run. -/
theorem edges_connect_witness :
    ({ source := "node-1", target := "node-2", label := EdgeLabel.TRANSIT_ACCESS,
       color := EDGE_COLORS EdgeLabel.TRANSIT_ACCESS } : GraphLink).source ≠
      ({ source := "node-1", target := "node-2", label := EdgeLabel.TRANSIT_ACCESS,
         color := EDGE_COLORS EdgeLabel.TRANSIT_ACCESS } : GraphLink).target ∧
    (∃ hn ∈ (buildNycGraph distZero [elHotel, elSubway, elAttraction]).nodes,
      hn.id = "node-1" ∧ hn.type = NodeType.Hotel) := by
  have happ := edges_connect_hotel_to_subway_or_attraction distZero
    [elHotel, elSubway, elAttraction]
    { source := "node-1", target := "node-2", label := EdgeLabel.TRANSIT_ACCESS,
      color := EDGE_COLORS EdgeLabel.TRANSIT_ACCESS } (by decide)
  exact ⟨happ.2.2.1, happ.1⟩

/-- C4: after the centrality computation of a derivation run, every entity's
degree field equals the number of edges of the run whose source id or target
id equals the entity's id (an entity incident to no edge therefore has degree
exactly 0, and every degree is a natural number). -/
theorem degree_equals_incident_edge_count
    (dist : ℚ → ℚ → ℚ → ℚ → ℚ) (elements : List OsmElement)
    (n : GraphNode) (hn : n ∈ (buildNycGraph dist elements).nodes) :
    n.degree = ((buildNycGraph dist elements).links.filter
      (fun l => decide (l.source = n.id ∨ l.target = n.id))).length := by
  have hpw := buildNodes_pairwise_id elements
  have hn' : n ∈ setDegrees (buildNodes elements) (mkLinks dist (buildNodes elements)) := hn
  rcases mem_setDegrees.mp hn' with ⟨m, hm, rfl⟩
  have hno : ∀ l ∈ mkLinks dist (buildNodes elements),
      ¬(l.source = m.id ∧ l.target = m.id) := by
    intro l hl hc
    exact source_ne_target_of_mem_mkLinks hpw hl (hc.1.trans hc.2.symm)
  show degreeMapOf (mkLinks dist (buildNodes elements)) m.id = _
  rw [degreeMapOf_eq, ← countP_incident_eq hno, List.countP_eq_length_filter]
  rfl

/-- C4 witness: in the concrete run over a hotel, a subway and an attraction
record, the hotel entity has degree 2, equal to its incident-edge count. -/
theorem degree_equals_incident_witness :
    ({ id := "node-1", name := "H1", type := NodeType.Hotel, lat := 0, lon := 0,
       color := NODE_COLORS NodeType.Hotel, degree := 2 } : GraphNode).degree =
      ((buildNycGraph distZero [elHotel, elSubway, elAttraction]).links.filter
        (fun l => decide (l.source = "node-1" ∨ l.target = "node-1"))).length := by
  exact degree_equals_incident_edge_count distZero [elHotel, elSubway, elAttraction]
    { id := "node-1", name := "H1", type := NodeType.Hotel, lat := 0, lon := 0,
      color := NODE_COLORS NodeType.Hotel, degree := 2 } (by decide)

/-- C9: within one derivation run the generated edge set contains no duplicate
(source, target, label) triple — any two distinct positions of the edge list
differ in source, target or label. -/
theorem no_duplicate_edge_triples (dist : ℚ → ℚ → ℚ → ℚ → ℚ)
    (elements : List OsmElement) :
    (buildNycGraph dist elements).links.Pairwise
      (fun a b => ¬(a.source = b.source ∧ a.target = b.target ∧ a.label = b.label)) :=
  pairwise_triple_mkLinks (buildNodes_pairwise_id elements)

/-- C9 witness: the concrete run over a hotel, a subway and an attraction
record produces an edge list with pairwise distinct triples. -/
theorem no_duplicate_edge_triples_witness :
    (buildNycGraph distZero [elHotel, elSubway, elAttraction]).links.Pairwise
      (fun a b => ¬(a.source = b.source ∧ a.target = b.target ∧ a.label = b.label)) :=
  no_duplicate_edge_triples distZero [elHotel, elSubway, elAttraction]

/-! ### Helper lemmas: ranking engine -/

theorem byScoreDesc_trans (a b c : QueryResult) :
    byScoreDesc a b → byScoreDesc b c → byScoreDesc a c := by
  simp only [byScoreDesc, decide_eq_true_eq]
  omega

theorem byScoreDesc_total (a b : QueryResult) :
    byScoreDesc a b || byScoreDesc b a := by
  simp only [byScoreDesc]
  by_cases h : b.score ≤ a.score
  · simp [h]
  · simp [h]
    omega

theorem mem_scoredHotels {rawLinks : List GraphLink} {nodes : List GraphNode}
    {mode : QueryMode} {r : QueryResult} :
    r ∈ scoredHotels rawLinks nodes mode ↔
      (∃ n, n ∈ nodes ∧ n.type = NodeType.Hotel ∧ r = scoreHotel rawLinks mode n) ∧
        0 < r.score := by
  simp only [scoredHotels, List.mem_filter, List.mem_map, List.mem_filter,
    decide_eq_true_eq]
  constructor
  · rintro ⟨⟨n, ⟨hn, hty⟩, rfl⟩, hpos⟩
    exact ⟨⟨n, hn, hty, rfl⟩, hpos⟩
  · rintro ⟨⟨n, hn, hty, rfl⟩, hpos⟩
    exact ⟨⟨n, ⟨hn, hty⟩, rfl⟩, hpos⟩

theorem mem_of_mem_queryResults {rawLinks : List GraphLink} {nodes : List GraphNode}
    {mode : QueryMode} {r : QueryResult} (hr : r ∈ queryResults rawLinks nodes mode) :
    r ∈ scoredHotels rawLinks nodes mode := by
  rw [queryResults] at hr
  split at hr
  · exact absurd hr (List.not_mem_nil r)
  · exact List.mem_mergeSort.mp (List.take_subset 5 _ hr)

/-- C2: for every Hotel entity, with t the count of edges of the edge set
whose source or target id equals the Hotel's id and labeled TRANSIT_ACCESS,
and c the same count for WALKABLE_TO (both counted from the edge set), the
ranking score equals: transit 2t+c, culture 2c+t, balanced t+c, hub 3t+c,
corridor 3c+t, and connected t+c gated to 0 unless both t and c are positive;
moreover every row of the ranking output is exactly the scoring of its
hotel. -/
theorem queryResults_score_formula (rawLinks : List GraphLink) (mode : QueryMode)
    (hotel : GraphNode) :
    (scoreHotel rawLinks mode hotel).transitCount =
      incidentWithLabel rawLinks hotel.id EdgeLabel.TRANSIT_ACCESS ∧
    (scoreHotel rawLinks mode hotel).cultureCount =
      incidentWithLabel rawLinks hotel.id EdgeLabel.WALKABLE_TO ∧
    (scoreHotel rawLinks mode hotel).score = (match mode with
      | QueryMode.transit =>
        2 * incidentWithLabel rawLinks hotel.id EdgeLabel.TRANSIT_ACCESS +
          incidentWithLabel rawLinks hotel.id EdgeLabel.WALKABLE_TO
      | QueryMode.culture =>
        2 * incidentWithLabel rawLinks hotel.id EdgeLabel.WALKABLE_TO +
          incidentWithLabel rawLinks hotel.id EdgeLabel.TRANSIT_ACCESS
      | QueryMode.balanced =>
        incidentWithLabel rawLinks hotel.id EdgeLabel.TRANSIT_ACCESS +
          incidentWithLabel rawLinks hotel.id EdgeLabel.WALKABLE_TO
      | QueryMode.connected =>
        if 0 < incidentWithLabel rawLinks hotel.id EdgeLabel.TRANSIT_ACCESS ∧
            0 < incidentWithLabel rawLinks hotel.id EdgeLabel.WALKABLE_TO then
          incidentWithLabel rawLinks hotel.id EdgeLabel.TRANSIT_ACCESS +
            incidentWithLabel rawLinks hotel.id EdgeLabel.WALKABLE_TO
        else 0
      | QueryMode.hub =>
        3 * incidentWithLabel rawLinks hotel.id EdgeLabel.TRANSIT_ACCESS +
          incidentWithLabel rawLinks hotel.id EdgeLabel.WALKABLE_TO
      | QueryMode.corridor =>
        3 * incidentWithLabel rawLinks hotel.id EdgeLabel.WALKABLE_TO +
          incidentWithLabel rawLinks hotel.id EdgeLabel.TRANSIT_ACCESS) ∧
    (∀ (nodes : List GraphNode) (r : QueryResult),
      r ∈ queryResults rawLinks nodes mode → r = scoreHotel rawLinks mode r.hotel) := by
  refine ⟨rfl, rfl, ?_, ?_⟩
  · cases mode <;> simp [scoreHotel, scoreFor] <;> try ring
  · intro nodes r hr
    rcases (mem_scoredHotels.mp (mem_of_mem_queryResults hr)).1 with ⟨n, _, _, rfl⟩
    rfl

/-- C2 witness: a hotel with one transit edge and one walkable edge scores
3 = 2·1+1 under transit mode, and the single output row of the engine equals
the scoring of its hotel. -/
theorem queryResults_score_formula_witness :
    (scoreHotel [transitLinkOf nH1 nS1, walkableLinkOf nH1 nA1] QueryMode.transit
        nH1).score = 3 ∧
    scoreHotel [transitLinkOf nH1 nS1, walkableLinkOf nH1 nA1] QueryMode.transit nH1 =
      scoreHotel [transitLinkOf nH1 nS1, walkableLinkOf nH1 nA1] QueryMode.transit
        (scoreHotel [transitLinkOf nH1 nS1, walkableLinkOf nH1 nA1] QueryMode.transit
          nH1).hotel := by
  have hq : queryResults [transitLinkOf nH1 nS1, walkableLinkOf nH1 nA1]
      [nH1, nS1, nA1] QueryMode.transit =
      [scoreHotel [transitLinkOf nH1 nS1, walkableLinkOf nH1 nA1] QueryMode.transit nH1] := by
    rw [queryResults, if_neg (by decide), rankedHotels,
      show scoredHotels [transitLinkOf nH1 nS1, walkableLinkOf nH1 nA1] [nH1, nS1, nA1]
          QueryMode.transit =
        [scoreHotel [transitLinkOf nH1 nS1, walkableLinkOf nH1 nA1] QueryMode.transit nH1]
        from by decide,
      List.mergeSort_singleton]
    rfl
  constructor
  · have h := (queryResults_score_formula [transitLinkOf nH1 nS1, walkableLinkOf nH1 nA1]
      QueryMode.transit nH1).2.2.1
    rw [h]
    decide
  · exact (queryResults_score_formula [transitLinkOf nH1 nS1, walkableLinkOf nH1 nA1]
      QueryMode.transit nH1).2.2.2 [nH1, nS1, nA1] _
      (by rw [hq]; exact List.mem_singleton.mpr rfl)

/-- C3: the ranking output contains only Hotel rows with strictly positive
scores, has length at most 5, is non-increasing in score along the returned
sequence, and an empty entity or edge set yields the empty list rather than
an error. -/
theorem queryResults_only_positive_hotels_sorted_capped
    (rawLinks : List GraphLink) (nodes : List GraphNode) (mode : QueryMode) :
    (∀ r ∈ queryResults rawLinks nodes mode,
      r.hotel.type = NodeType.Hotel ∧ 0 < r.score) ∧
    (queryResults rawLinks nodes mode).length ≤ 5 ∧
    (queryResults rawLinks nodes mode).Pairwise (fun a b => b.score ≤ a.score) ∧
    (rawLinks = [] ∨ nodes = [] → queryResults rawLinks nodes mode = []) := by
  refine ⟨?_, ?_, ?_, ?_⟩
  · intro r hr
    have hs := mem_scoredHotels.mp (mem_of_mem_queryResults hr)
    rcases hs.1 with ⟨n, _, hty, rfl⟩
    exact ⟨hty, hs.2⟩
  · rw [queryResults]
    split
    · simp
    · rw [List.length_take]
      omega
  · rw [queryResults]
    split
    · simp
    · have hsorted : (rankedHotels rawLinks nodes mode).Pairwise
          (fun a b => byScoreDesc a b = true) :=
        List.sorted_mergeSort byScoreDesc_trans byScoreDesc_total _
      have := hsorted.sublist (List.take_sublist 5 _)
      exact this.imp fun hab => by
        simpa [byScoreDesc, decide_eq_true_eq] using hab
  · intro hempty
    rw [queryResults, if_pos hempty]

/-- C3 witness: on the concrete three-node graph the single returned row is a
Hotel with positive score, and empty inputs return the empty list. -/
theorem queryResults_shape_witness :
    (scoreHotel [transitLinkOf nH1 nS1, walkableLinkOf nH1 nA1] QueryMode.balanced
        nH1).hotel.type = NodeType.Hotel ∧
    queryResults [] [] QueryMode.balanced = [] := by
  have hq : queryResults [transitLinkOf nH1 nS1, walkableLinkOf nH1 nA1]
      [nH1, nS1, nA1] QueryMode.balanced =
      [scoreHotel [transitLinkOf nH1 nS1, walkableLinkOf nH1 nA1] QueryMode.balanced nH1] := by
    rw [queryResults, if_neg (by decide), rankedHotels,
      show scoredHotels [transitLinkOf nH1 nS1, walkableLinkOf nH1 nA1] [nH1, nS1, nA1]
          QueryMode.balanced =
        [scoreHotel [transitLinkOf nH1 nS1, walkableLinkOf nH1 nA1] QueryMode.balanced nH1]
        from by decide,
      List.mergeSort_singleton]
    rfl
  constructor
  · exact ((queryResults_only_positive_hotels_sorted_capped
      [transitLinkOf nH1 nS1, walkableLinkOf nH1 nA1] [nH1, nS1, nA1]
      QueryMode.balanced).1 _ (by rw [hq]; exact List.mem_singleton.mpr rfl)).1
  · exact (queryResults_only_positive_hotels_sorted_capped [] []
      QueryMode.balanced).2.2.2 (Or.inl rfl)

/-- C10: the descending sort of the ranking engine is stable — two candidate
rows with equal scores keep, in the sorted sequence, the relative order they
had in the candidate list, which itself follows the input entity order; the
ranking output is the 5-prefix of that sorted sequence, and the whole output
is a plain function of the entity set, the edge set and the mode. -/
theorem ranking_tie_order_stable (rawLinks : List GraphLink) (nodes : List GraphNode)
    (mode : QueryMode) (a b : QueryResult) (hscore : a.score = b.score)
    (hsub : List.Sublist [a, b] (scoredHotels rawLinks nodes mode)) :
    List.Sublist [a, b] (rankedHotels rawLinks nodes mode) ∧
    (∃ na nb, List.Sublist [na, nb] nodes ∧
      a = scoreHotel rawLinks mode na ∧ b = scoreHotel rawLinks mode nb) ∧
    (¬rawLinks = [] → ¬nodes = [] →
      queryResults rawLinks nodes mode = (rankedHotels rawLinks nodes mode).take 5) := by
  refine ⟨?_, ?_, ?_⟩
  · exact List.pair_sublist_mergeSort byScoreDesc_trans byScoreDesc_total
      (by simp [byScoreDesc, hscore]) hsub
  · have h1 : List.Sublist [a, b]
        ((nodes.filter fun n => decide (n.type = NodeType.Hotel)).map
          (scoreHotel rawLinks mode)) :=
      List.Sublist.trans hsub (List.filter_sublist _)
    rcases List.sublist_map_iff.mp h1 with ⟨l', hl', heq⟩
    rcases l' with _ | ⟨na, _ | ⟨nb, rest⟩⟩
    · simp at heq
    · simp at heq
    · simp only [List.map_cons] at heq
      have ha : a = scoreHotel rawLinks mode na := by
        injection heq
      have hrest := heq
      injection hrest with _ hrest'
      injection hrest' with hb hrest''
      have hrestnil : rest = [] := by
        have := List.map_eq_nil_iff.mp hrest''.symm
        exact this
      subst hrestnil
      exact ⟨na, nb, List.Sublist.trans hl' (List.filter_sublist _), ha, hb⟩
  · intro h1 h2
    rw [queryResults, if_neg (by simp [h1, h2])]

/-- C10 witness: two hotels with equal positive scores stay in input order
through the sort. -/
theorem ranking_tie_order_witness :
    List.Sublist
      [scoreHotel [transitLinkOf nH1 nS1, transitLinkOf nH2 nS1] QueryMode.balanced nH1,
       scoreHotel [transitLinkOf nH1 nS1, transitLinkOf nH2 nS1] QueryMode.balanced nH2]
      (rankedHotels [transitLinkOf nH1 nS1, transitLinkOf nH2 nS1] [nH1, nH2, nS1]
        QueryMode.balanced) := by
  have hs : scoredHotels [transitLinkOf nH1 nS1, transitLinkOf nH2 nS1] [nH1, nH2, nS1]
      QueryMode.balanced =
      [scoreHotel [transitLinkOf nH1 nS1, transitLinkOf nH2 nS1] QueryMode.balanced nH1,
       scoreHotel [transitLinkOf nH1 nS1, transitLinkOf nH2 nS1] QueryMode.balanced nH2] :=
    by decide
  exact (ranking_tie_order_stable [transitLinkOf nH1 nS1, transitLinkOf nH2 nS1]
    [nH1, nH2, nS1] QueryMode.balanced _ _ (by decide)
    (by rw [hs])).1

end NycNexus
